import Mathlib

/-!
Shallow embedding of the colorkit library (src/index.js).

The library maps a scalar value to a color by piecewise-linear
interpolation over a loaded color series.  JavaScript numbers are
modelled as rationals (`ℚ`); the mutable `ColorMap` object is modelled
as a structure threaded explicitly through the operations.
-/

namespace Colorkit

unseal Rat.add Rat.sub Rat.mul Rat.inv

/-- The `ColorFormat` enum of src/index.js: `DOUBLE` (triplet of values
in 0.0-1.0), `HEX` (hex string), `RGB` (triplet of 0-255 values). -/
inductive ColorFormat
  | DOUBLE
  | HEX
  | RGB
deriving DecidableEq, Repr

/-- Result of formatting a color: a triplet of doubles, a triplet of
0-255 integers, or a hex string, depending on the requested format. -/
inductive ColorResult
  | double : ℚ × ℚ × ℚ → ColorResult
  | rgb : ℤ × ℤ × ℤ → ColorResult
  | hex : String → ColorResult
deriving DecidableEq, Repr

/-- The `ColorMap` class state: four parallel value lists (null until a
series is loaded) and the input range `x_range` (default `[0.0, 1.0]`). -/
structure ColorMap where
  x_values : Option (List ℚ)
  r_values : Option (List ℚ)
  g_values : Option (List ℚ)
  b_values : Option (List ℚ)
  x_range : ℚ × ℚ
deriving DecidableEq, Repr

/-- The no-name `ColorMap` constructor: all value lists null, default
input range `[0.0, 1.0]`. -/
def ColorMap.init : ColorMap :=
  { x_values := none, r_values := none, g_values := none, b_values := none
    x_range := (0, 1) }

/-- Modelled from the spec: the built-in rainbow series lives in
src/rainbow.js, which is not among the sources; the spec fixes only that
the registry holds one series named "rainbow" satisfying the data-model
invariants (first position 0.0, last 1.0, strictly increasing, channels
in [0,1]).  The concrete control points below are a stand-in with those
invariants; no claim depends on the exact values. -/
def rainbow : List (ℚ × ℚ × ℚ × ℚ) :=
  [(0, 0, 0, 1), (1/2, 0, 1, 0), (1, 1, 0, 0)]

/-- The `ColorSeriesTable` registry: a single built-in entry "rainbow". -/
def ColorSeriesTable : String → Option (List (ℚ × ℚ × ℚ × ℚ)) :=
  fun name => if name = "rainbow" then some rainbow else none

/-- `ColorMap.listColorSeries`: the keys of `ColorSeriesTable`. -/
def listColorSeries : List String := ["rainbow"]

/-- `setInputRange(range)`: replaces `x_range`, nothing else. -/
def setInputRange (range : ℚ × ℚ) (cm : ColorMap) : ColorMap :=
  { cm with x_range := range }

/-- `inputColorSeries(values)`: splits the `[x, [r, g, b]]` entries into
the four parallel lists, replacing all of them; performs no validation. -/
def inputColorSeries (values : List (ℚ × ℚ × ℚ × ℚ)) (cm : ColorMap) : ColorMap :=
  { cm with
    x_values := some (values.map fun v => v.1)
    r_values := some (values.map fun v => v.2.1)
    g_values := some (values.map fun v => v.2.2.1)
    b_values := some (values.map fun v => v.2.2.2) }

/-- Errors thrown by the library. -/
inductive ColorError
  | NotFound
deriving DecidableEq, Repr

/-- `useColorSeries(name)`: throws "Unrecognized colormap name" before
touching any state when the name is not in `ColorSeriesTable`; otherwise
loads the registered series via `inputColorSeries`.  The pair returned is
(error if thrown, state after the call). -/
def useColorSeries (name : String) (cm : ColorMap) : Option ColorError × ColorMap :=
  match ColorSeriesTable name with
  | none => (some ColorError.NotFound, cm)
  | some values => (none, inputColorSeries values cm)

/-- `enforceBounds(x)`: clamp to [0, 1]. -/
def enforceBounds (x : ℚ) : ℚ :=
  if x < 0 then 0
  else if x > 1 then 1
  else x

/-- Hex digit characters as produced by JavaScript `toString(16)`:
'0'-'9' then lowercase 'a'-'f'. -/
def hexDigitChar (n : ℕ) : Char :=
  if n < 10 then Char.ofNat (48 + n) else Char.ofNat (87 + n)

/-- Base-16 digit expansion, fuel-based so that it reduces by `decide`;
`natToHex` below supplies enough fuel for any input. -/
def natToHexAux : ℕ → ℕ → List Char
  | 0, n => [hexDigitChar (n % 16)]
  | fuel + 1, n =>
    if n < 16 then [hexDigitChar n]
    else natToHexAux fuel (n / 16) ++ [hexDigitChar (n % 16)]

/-- JavaScript `n.toString(16)` for a natural number: lowercase base-16
digits, most significant first. -/
def natToHex (n : ℕ) : List Char := natToHexAux n n

/-- JavaScript `i.toString(16)` for an integer: a '-' sign followed by
the digits of the absolute value when negative. -/
def intToHex (i : ℤ) : List Char :=
  if i < 0 then '-' :: natToHex i.natAbs else natToHex i.toNat

/-- JavaScript `('0' + s).slice(-2)`: the last two characters of the
string obtained by prepending '0'. -/
def padSlice2 (s : List Char) : List Char :=
  ('0' :: s).drop (('0' :: s).length - 2)

/-- JavaScript `Math.round`: round half toward positive infinity. -/
def jsRound (q : ℚ) : ℤ := ⌊q + 1/2⌋

/-- `formatColor(doubleVal, format)`: `DOUBLE` returns the triplet
unchanged; `RGB` maps each channel through `Math.round(255.0 * val)`;
`HEX` additionally renders each rounded value via
`('0' + val.toString(16)).slice(-2)` and joins them after '#'.  (The
throw branch for an unrecognized format is unreachable over the closed
`ColorFormat` enum.) -/
def formatColor (doubleVal : ℚ × ℚ × ℚ) (format : ColorFormat) : ColorResult :=
  match format with
  | ColorFormat.DOUBLE => ColorResult.double doubleVal
  | ColorFormat.RGB =>
    ColorResult.rgb
      (jsRound (255 * doubleVal.1), jsRound (255 * doubleVal.2.1),
        jsRound (255 * doubleVal.2.2))
  | ColorFormat.HEX =>
    ColorResult.hex (String.mk ('#' ::
      (padSlice2 (intToHex (jsRound (255 * doubleVal.1))) ++
        padSlice2 (intToHex (jsRound (255 * doubleVal.2.1))) ++
        padSlice2 (intToHex (jsRound (255 * doubleVal.2.2))))))

/-- The double triplet `[this.r_values[i], this.g_values[i], this.b_values[i]]`
read by `lookupColor` (out-of-range indices modelled by default 0). -/
def lookupDouble (cm : ColorMap) (i : ℕ) : ℚ × ℚ × ℚ :=
  ((cm.r_values.getD []).getD i 0,
    (cm.g_values.getD []).getD i 0,
    (cm.b_values.getD []).getD i 0)

/-- `lookupColor(i, format)`: format one stored control-point color. -/
def lookupColor (cm : ColorMap) (i : ℕ) (format : ColorFormat) : ColorResult :=
  formatColor (lookupDouble cm i) format

/-- The backward walk of `interpolateColor`:
`while (this.x_values[iLo] > x && iLo > 0) iLo--`. -/
def walkDown (xs : List ℚ) (x : ℚ) : ℕ → ℕ
  | 0 => 0
  | i + 1 => if xs.getD (i + 1) 0 > x then walkDown xs x i else i + 1

/-- The forward walk of `interpolateColor`, fuel-based:
`while (this.x_values[iHi] < x && iHi < iMax) iHi++`.  The fuel
`iMax - i` supplied by `walkUp` is exact: the walk can only stop early,
and once `i = iMax` the loop guard is false. -/
def walkUpAux (xs : List ℚ) (x : ℚ) (iMax : ℕ) : ℕ → ℕ → ℕ
  | 0, i => i
  | fuel + 1, i =>
    if xs.getD i 0 < x ∧ i < iMax then walkUpAux xs x iMax fuel (i + 1) else i

/-- The forward walk of `interpolateColor` starting at index `i`. -/
def walkUp (xs : List ℚ) (x : ℚ) (iMax : ℕ) (i : ℕ) : ℕ :=
  walkUpAux xs x iMax (iMax - i) i

/-- The double triplet computed by `interpolateColor` for a loaded map,
before formatting.  Mirrors the source line by line:
normalization, the two boundary clamps, the seeded backward/forward
walks, the exact-hit branch, and the blend.  Note that the source line
`console.assert(iHi = iLo + 1)` uses `=`, not `==`: it unconditionally
assigns `iLo + 1` to `iHi` before the blend, discarding the forward
walk's result (which only feeds the exact-hit test). -/
def interpColorValue (cm : ColorMap) (val : ℚ) : ℚ × ℚ × ℚ :=
  let xs := cm.x_values.getD []
  let x := (val - cm.x_range.1) / (cm.x_range.2 - cm.x_range.1)
  if x ≤ 0 then lookupDouble cm 0
  else
    let iMax := xs.length - 1
    if x ≥ 1 then lookupDouble cm iMax
    else
      let iLo := walkDown xs x (⌈x * (iMax : ℚ)⌉).toNat
      let iHi0 := walkUp xs x iMax iLo
      if iLo = iHi0 then lookupDouble cm iLo
      else
        let iHi := iLo + 1
        let width := |xs.getD iHi 0 - xs.getD iLo 0|
        let sf := (x - xs.getD iLo 0) / width
        let rs := cm.r_values.getD []
        let gs := cm.g_values.getD []
        let bs := cm.b_values.getD []
        (enforceBounds (rs.getD iLo 0 + sf * (rs.getD iHi 0 - rs.getD iLo 0)),
          enforceBounds (gs.getD iLo 0 + sf * (gs.getD iHi 0 - gs.getD iLo 0)),
          enforceBounds (bs.getD iLo 0 + sf * (bs.getD iHi 0 - bs.getD iLo 0)))

/-- The fallback at the top of `interpolateColor`: if `x_values` is
still null, load the built-in rainbow series. -/
def ensureLoaded (cm : ColorMap) : ColorMap :=
  if cm.x_values.isNone then inputColorSeries rainbow cm else cm

/-- `interpolateColor(val, format)`: ensure a series is loaded, compute
the double triplet for `val`, format it.  Every return statement of the
source is `formatColor` applied to a path-dependent double triplet
(`lookupColor` included), so formatting is hoisted out of
`interpColorValue`.  Returns (result, state after the call). -/
def interpolateColor (cm : ColorMap) (val : ℚ) (format : ColorFormat) :
    ColorResult × ColorMap :=
  let loaded := ensureLoaded cm
  (formatColor (interpColorValue loaded val) format, loaded)

/-- The six-point series used by the spec's concrete scenarios. -/
def sixSeries : List (ℚ × ℚ × ℚ × ℚ) :=
  [(0, 0, 3/5, 11/20), (1/5, 1/5, 2/5, 27/50), (2/5, 2/5, 1/5, 53/100),
    (3/5, 3/5, 1/5, 13/25), (4/5, 4/5, 2/5, 51/100), (1, 1, 3/5, 1/2)]

/-- The six-point series loaded into a fresh map. -/
def cmSix : ColorMap := inputColorSeries sixSeries ColorMap.init

/-!  Reference definitions written from the spec's words, for comparison
with the source algorithm. -/

/-- The bracket index the spec describes: the largest index whose stored
position does not exceed `x` (what a binary search over the monotone
positions returns). -/
def specLo (xs : List ℚ) (x : ℚ) : ℕ :=
  (List.range xs.length).foldl (fun acc i => if xs.getD i 0 ≤ x then i else acc) 0

/-- Reference interpolation following the spec's words (boundary clamp,
adjacent bracket `position[iLo] <= x <= position[iLo+1]` found as by
binary search, exact-hit lookup, linear blend over the raw position
difference).  Used only to compare the source's seeded linear scan
against the spec's claimed binary-search equivalent. -/
def specBracketInterpolate (xs rs gs bs : List ℚ) (x : ℚ) : ℚ × ℚ × ℚ :=
  if x ≤ 0 then (rs.getD 0 0, gs.getD 0 0, bs.getD 0 0)
  else if x ≥ 1 then
    (rs.getD (xs.length - 1) 0, gs.getD (xs.length - 1) 0, bs.getD (xs.length - 1) 0)
  else
    let iLo := specLo xs x
    if xs.getD iLo 0 = x then (rs.getD iLo 0, gs.getD iLo 0, bs.getD iLo 0)
    else
      let iHi := iLo + 1
      let t := (x - xs.getD iLo 0) / (xs.getD iHi 0 - xs.getD iLo 0)
      (rs.getD iLo 0 + t * (rs.getD iHi 0 - rs.getD iLo 0),
        gs.getD iLo 0 + t * (gs.getD iHi 0 - gs.getD iLo 0),
        bs.getD iLo 0 + t * (bs.getD iHi 0 - bs.getD iLo 0))

/-- Rounding with ties away from zero, as the spec describes BYTE
conversion; compared against the source's `Math.round` (`jsRound`). -/
def roundHalfAwayFromZero (q : ℚ) : ℤ :=
  if 0 ≤ q then ⌊q + 1/2⌋ else ⌈q - 1/2⌉

/-- A byte rendered as two zero-padded lowercase hex digits, as the spec
describes HEX conversion. -/
def hexPair (n : ℕ) : List Char :=
  [hexDigitChar (n / 16), hexDigitChar (n % 16)]

/-!  A series satisfying all the data-model invariants (5 points, first
position 0.0, last 1.0, strictly increasing, channels in [0,1]) whose
positions lag far behind the uniform grid, so the linear seed
`ceil(x * iMax)` underestimates the bracket. -/

/-- Invariant-satisfying series on which the seeded scan misbrackets. -/
def lagSeries : List (ℚ × ℚ × ℚ × ℚ) :=
  [(0, 0, 0, 0), (1/100, 1/10, 1/10, 1/10), (2/100, 1/2, 1/2, 1/2),
    (3/100, 3/10, 3/10, 3/10), (1, 1, 1, 1)]

/-- `lagSeries` loaded into a fresh map (default input range [0,1]). -/
def cmLag : ColorMap := inputColorSeries lagSeries ColorMap.init

/-- The positions of `lagSeries`. -/
def lagXs : List ℚ := [0, 1/100, 2/100, 3/100, 1]

/-!  Helper lemmas shared by several claims. -/

theorem enforceBounds_mem (x : ℚ) : 0 ≤ enforceBounds x ∧ enforceBounds x ≤ 1 := by
  unfold enforceBounds
  split_ifs with h1 h2
  · exact ⟨le_refl 0, zero_le_one⟩
  · exact ⟨zero_le_one, le_refl 1⟩
  · exact ⟨le_of_not_lt h1, le_of_not_lt h2⟩

theorem getD_mem_unit (l : List ℚ) (h : ∀ c ∈ l, 0 ≤ c ∧ c ≤ 1) (i : ℕ) :
    0 ≤ l.getD i 0 ∧ l.getD i 0 ≤ 1 := by
  rcases lt_or_le i l.length with hi | hi
  · rw [List.getD_eq_getElem l 0 hi]
    exact h _ (List.getElem_mem hi)
  · rw [List.getD_eq_default l 0 hi]
    exact ⟨le_refl 0, zero_le_one⟩

theorem ensureLoaded_of_loaded (cm : ColorMap) (xs : List ℚ)
    (hx : cm.x_values = some xs) : ensureLoaded cm = cm := by
  unfold ensureLoaded
  rw [hx]
  rfl

/-- Componentwise bounds for the double triplet computed by a map whose
stored channels all lie in [0,1]: the blend path clamps via
`enforceBounds`, the lookup paths read a stored (hence bounded) channel. -/
theorem interpColorValue_mem_unit (cm : ColorMap) (val : ℚ)
    (hr : ∀ c ∈ cm.r_values.getD [], 0 ≤ c ∧ c ≤ 1)
    (hg : ∀ c ∈ cm.g_values.getD [], 0 ≤ c ∧ c ≤ 1)
    (hb : ∀ c ∈ cm.b_values.getD [], 0 ≤ c ∧ c ≤ 1) :
    (0 ≤ (interpColorValue cm val).1 ∧ (interpColorValue cm val).1 ≤ 1) ∧
    (0 ≤ (interpColorValue cm val).2.1 ∧ (interpColorValue cm val).2.1 ≤ 1) ∧
    (0 ≤ (interpColorValue cm val).2.2 ∧ (interpColorValue cm val).2.2 ≤ 1) := by
  unfold interpColorValue lookupDouble
  dsimp only
  split_ifs
  · exact ⟨getD_mem_unit _ hr 0, getD_mem_unit _ hg 0, getD_mem_unit _ hb 0⟩
  · exact ⟨getD_mem_unit _ hr _, getD_mem_unit _ hg _, getD_mem_unit _ hb _⟩
  · exact ⟨getD_mem_unit _ hr _, getD_mem_unit _ hg _, getD_mem_unit _ hb _⟩
  · exact ⟨enforceBounds_mem _, enforceBounds_mem _, enforceBounds_mem _⟩

/-!  Claims. -/

/-- C1.  The seeded linear scan does not always end with an adjacent
bracket satisfying `position[iLo] <= x <= position[iHi]`, and is not
equivalent to binary search.  On `lagSeries` (which satisfies every
data-model invariant) at x = 1/2: the seed `ceil(x*iMax)` is 2, the
backward walk stays at iLo = 2, the forward walk runs to iHi = 4 (so the
intended assertion `iHi == iLo + 1` is violated; the source's
`console.assert(iHi = iLo + 1)` is an assignment and silently forces
iHi = 3), position[3] = 3/100 < x so the pair actually blended does not
bracket x, and the returned color (clamped extrapolation, (0,0,0))
differs from the binary-search reference result (62/97, 62/97, 62/97). -/
theorem C1_seeded_scan_misbrackets :
    walkDown lagXs (1/2) (⌈(1/2 : ℚ) * (4 : ℚ)⌉).toNat = 2 ∧
    walkUp lagXs (1/2) 4 2 = 4 ∧
    walkUp lagXs (1/2) 4 (walkDown lagXs (1/2) 2) ≠ walkDown lagXs (1/2) 2 + 1 ∧
    ¬ ((1:ℚ)/2 ≤ lagXs.getD (2 + 1) 0) ∧
    (interpolateColor cmLag (1/2) ColorFormat.DOUBLE).1 =
      ColorResult.double (0, 0, 0) ∧
    specBracketInterpolate lagXs [0, 1/10, 1/2, 3/10, 1] [0, 1/10, 1/2, 3/10, 1]
      [0, 1/10, 1/2, 3/10, 1] (1/2) = (62/97, 62/97, 62/97) ∧
    ((0 : ℚ), (0 : ℚ), (0 : ℚ)) ≠ ((62 : ℚ)/97, (62 : ℚ)/97, (62 : ℚ)/97) := by
  refine ⟨by decide, by decide, by decide, by decide, by decide, by decide, by decide⟩

/-- C2.  An exact hit on a control point does not always return that
point's color.  On `lagSeries` with the default input range, the value
3/100 normalizes to x = 3/100 = position[3] exactly, yet the scan seeded
at `ceil(0.03*4) = 1` never reaches index 3: the code blends indices 1
and 2 with scaling factor 2 and returns (9/10, 9/10, 9/10) instead of
the stored color (3/10, 3/10, 3/10) at index 3. -/
theorem C2_exact_hit_not_returned :
    lagXs.getD 3 0 = 3/100 ∧
    ((3:ℚ)/100 - cmLag.x_range.1) / (cmLag.x_range.2 - cmLag.x_range.1) = 3/100 ∧
    lookupDouble cmLag 3 = (3/10, 3/10, 3/10) ∧
    (interpolateColor cmLag (3/100) ColorFormat.DOUBLE).1 =
      ColorResult.double (9/10, 9/10, 9/10) ∧
    (interpolateColor cmLag (3/100) ColorFormat.DOUBLE).1 ≠
      ColorResult.double (lookupDouble cmLag 3) := by
  refine ⟨by decide, by decide, by decide, by decide, by decide⟩

/-- C3 counterexample.  The clamp is not applied on the boundary-clamp
lookup path: a loaded series whose first red channel is 3/2 yields a
FRACTION output with a channel outside [0,1]. -/
theorem C3_lookup_path_unclamped :
    (interpolateColor (inputColorSeries [(0, 3/2, 0, 0), (1, 0, 0, 0)] ColorMap.init)
      (-1) ColorFormat.DOUBLE).1 = ColorResult.double (3/2, 0, 0) ∧
    ¬ ((3 : ℚ)/2 ≤ 1) := by
  refine ⟨by decide, by decide⟩

/-- C3 amended.  If every stored channel of the loaded series lies in
[0.0, 1.0], then every channel of the FRACTION output lies in [0.0, 1.0]
for every input value: the blend path clamps unconditionally via
`enforceBounds`, while the boundary-clamp and exact-hit lookup paths
return stored (hence bounded) channels unchanged. -/
theorem C3_fraction_in_unit_of_unit_channels (cm : ColorMap) (xs : List ℚ)
    (hx : cm.x_values = some xs)
    (hr : ∀ c ∈ cm.r_values.getD [], 0 ≤ c ∧ c ≤ 1)
    (hg : ∀ c ∈ cm.g_values.getD [], 0 ≤ c ∧ c ≤ 1)
    (hb : ∀ c ∈ cm.b_values.getD [], 0 ≤ c ∧ c ≤ 1) (val : ℚ) :
    (interpolateColor cm val ColorFormat.DOUBLE).1 =
      ColorResult.double (interpColorValue cm val) ∧
    (0 ≤ (interpColorValue cm val).1 ∧ (interpColorValue cm val).1 ≤ 1) ∧
    (0 ≤ (interpColorValue cm val).2.1 ∧ (interpColorValue cm val).2.1 ≤ 1) ∧
    (0 ≤ (interpColorValue cm val).2.2 ∧ (interpColorValue cm val).2.2 ≤ 1) := by
  constructor
  · unfold interpolateColor
    rw [ensureLoaded_of_loaded cm xs hx]
    rfl
  · exact interpColorValue_mem_unit cm val hr hg hb

/-- C3 amended, witness at the six-point series and value 1/3. -/
theorem C3_fraction_in_unit_witness :
    (interpolateColor cmSix (1/3) ColorFormat.DOUBLE).1 =
      ColorResult.double (interpColorValue cmSix (1/3)) ∧
    (0 ≤ (interpColorValue cmSix (1/3)).1 ∧ (interpColorValue cmSix (1/3)).1 ≤ 1) ∧
    (0 ≤ (interpColorValue cmSix (1/3)).2.1 ∧ (interpColorValue cmSix (1/3)).2.1 ≤ 1) ∧
    (0 ≤ (interpColorValue cmSix (1/3)).2.2 ∧ (interpColorValue cmSix (1/3)).2.2 ≤ 1) :=
  C3_fraction_in_unit_of_unit_channels cmSix
    (sixSeries.map fun v => v.1) (by decide) (by decide) (by decide) (by decide) (1/3)

/-- A normalized value at or below zero takes the first-point branch. -/
theorem interpColorValue_low (cm : ColorMap) (val : ℚ)
    (h : (val - cm.x_range.1) / (cm.x_range.2 - cm.x_range.1) ≤ 0) :
    interpColorValue cm val = lookupDouble cm 0 := by
  unfold interpColorValue
  dsimp only
  rw [if_pos h]

/-- A normalized value at or above one takes the last-point branch. -/
theorem interpColorValue_high (cm : ColorMap) (val : ℚ)
    (h0 : ¬ ((val - cm.x_range.1) / (cm.x_range.2 - cm.x_range.1) ≤ 0))
    (h1 : (val - cm.x_range.1) / (cm.x_range.2 - cm.x_range.1) ≥ 1) :
    interpColorValue cm val = lookupDouble cm ((cm.x_values.getD []).length - 1) := by
  unfold interpColorValue
  dsimp only
  rw [if_neg h0, if_pos h1]

/-- C4.  Store operations are atomic: loading by name either fails with
no mutation at all (the registry check precedes every write) or replaces
the four parallel sequences with the complete decomposition of the
registered series in one step; loading raw data replaces all four
sequences wholesale (never partially). -/
theorem C4_atomic_operations (name : String)
    (values : List (ℚ × ℚ × ℚ × ℚ)) (cm : ColorMap) :
    ((useColorSeries name cm).1.isSome → (useColorSeries name cm).2 = cm) ∧
    ((useColorSeries name cm).1 = none →
      ∃ vs, ColorSeriesTable name = some vs ∧
        (useColorSeries name cm).2 = inputColorSeries vs cm) ∧
    inputColorSeries values cm =
      { cm with
        x_values := some (values.map fun v => v.1)
        r_values := some (values.map fun v => v.2.1)
        g_values := some (values.map fun v => v.2.2.1)
        b_values := some (values.map fun v => v.2.2.2) } := by
  refine ⟨?_, ?_, rfl⟩ <;>
    cases h : ColorSeriesTable name <;> simp [useColorSeries, h]

/-- C4, witness: an unknown name fails and leaves the store untouched. -/
theorem C4_atomic_operations_witness :
    (useColorSeries "nope" ColorMap.init).2 = ColorMap.init :=
  (C4_atomic_operations "nope" sixSeries ColorMap.init).1 (by decide)

/-- C5.  With a loaded series of at least 2 points and an input range
with min < max, every value at or below min returns the first control
point's color and every value at or above max returns the last control
point's color, by the exact comparisons `x <= 0.0` and `x >= 1.0`. -/
theorem C5_boundary_clamp (cm : ColorMap) (xs : List ℚ) (mn mx val : ℚ)
    (format : ColorFormat) (hx : cm.x_values = some xs) (_hlen : 2 ≤ xs.length)
    (hrange : cm.x_range = (mn, mx)) (hlt : mn < mx) :
    (val ≤ mn → interpolateColor cm val format = (lookupColor cm 0 format, cm)) ∧
    (mx ≤ val → interpolateColor cm val format =
      (lookupColor cm (xs.length - 1) format, cm)) := by
  have hcm := ensureLoaded_of_loaded cm xs hx
  constructor
  · intro hval
    have h0 : (val - cm.x_range.1) / (cm.x_range.2 - cm.x_range.1) ≤ 0 := by
      rw [hrange]
      dsimp only
      exact div_nonpos_iff.mpr (Or.inr ⟨by linarith, by linarith⟩)
    unfold interpolateColor
    dsimp only
    rw [hcm, interpColorValue_low cm val h0]
    rfl
  · intro hval
    have h1 : (val - cm.x_range.1) / (cm.x_range.2 - cm.x_range.1) ≥ 1 := by
      rw [hrange]
      dsimp only
      exact (one_le_div (by linarith)).mpr (by linarith)
    have h0 : ¬ ((val - cm.x_range.1) / (cm.x_range.2 - cm.x_range.1) ≤ 0) := by
      intro hc
      have := le_trans h1 hc
      linarith
    unfold interpolateColor
    dsimp only
    rw [hcm, interpColorValue_high cm val h0 h1, hx]
    rfl

/-- C5, witness: on the six-point series with the default range [0,1],
the value -1 returns the first control point's color. -/
theorem C5_boundary_clamp_witness :
    interpolateColor cmSix (-1) ColorFormat.RGB =
      (lookupColor cmSix 0 ColorFormat.RGB, cmSix) :=
  (C5_boundary_clamp cmSix (sixSeries.map fun v => v.1) 0 1 (-1)
    ColorFormat.RGB rfl (by decide) rfl (by decide)).1 (by decide)

theorem jsRound_byte_mem (d : ℚ) (h0 : 0 ≤ d) (h1 : d ≤ 1) :
    0 ≤ jsRound (255 * d) ∧ jsRound (255 * d) ≤ 255 := by
  unfold jsRound
  constructor
  · exact Int.le_floor.mpr (by push_cast; linarith)
  · have hlt : (255 * d + 1/2 : ℚ) < ((256 : ℤ) : ℚ) := by push_cast; linarith
    have := Int.floor_lt.mpr hlt
    omega

theorem jsRound_eq_half_away (q : ℚ) (h : 0 ≤ q) :
    jsRound q = roundHalfAwayFromZero q := by
  unfold jsRound roundHalfAwayFromZero
  rw [if_pos h]

set_option maxRecDepth 4000 in
theorem padSlice2_natToHex (n : ℕ) (h : n < 256) :
    padSlice2 (natToHex n) = hexPair n := by
  have hall : ∀ m : ℕ, m < 256 → padSlice2 (natToHex m) = hexPair m := by decide
  exact hall n h

theorem padSlice2_intToHex_byte (z : ℤ) (h0 : 0 ≤ z) (h255 : z ≤ 255) :
    padSlice2 (intToHex z) = hexPair z.toNat := by
  unfold intToHex
  rw [if_neg (not_lt.mpr h0)]
  exact padSlice2_natToHex z.toNat (by omega)

/-- C6 counterexample.  For a store state whose loaded series has a
channel outside [0,1], the BYTE output can leave [0,255]: with first
point color (2,0,0), the value -1 takes the boundary-lookup path and the
RGB result is (510, 0, 0). -/
theorem C6_byte_out_of_range :
    (interpolateColor (inputColorSeries [(0, 2, 0, 0), (1, 0, 0, 0)] ColorMap.init)
      (-1) ColorFormat.RGB).1 = ColorResult.rgb (510, 0, 0) ∧
    ¬ ((510 : ℤ) ≤ 255) := by
  refine ⟨by decide, by decide⟩

/-- C6 amended.  For every store state whose stored channels all lie in
[0,1] and every input value: the BYTE (RGB) output is the channel-wise
`Math.round` of 255 times the FRACTION (DOUBLE) output, each resulting
integer lies in [0,255], the rounding agrees with ties-half-away-from-zero
(the arguments are nonnegative), and the HEX output is '#' followed by
the three bytes as 2-digit zero-padded lowercase hexadecimal — a
7-character string. -/
theorem C6_byte_hex_of_unit_channels (cm : ColorMap) (xs : List ℚ)
    (hx : cm.x_values = some xs)
    (hr : ∀ c ∈ cm.r_values.getD [], 0 ≤ c ∧ c ≤ 1)
    (hg : ∀ c ∈ cm.g_values.getD [], 0 ≤ c ∧ c ≤ 1)
    (hb : ∀ c ∈ cm.b_values.getD [], 0 ≤ c ∧ c ≤ 1) (val : ℚ) :
    ((interpolateColor cm val ColorFormat.DOUBLE).1 =
      ColorResult.double (interpColorValue cm val) ∧
    (interpolateColor cm val ColorFormat.RGB).1 =
      ColorResult.rgb (jsRound (255 * (interpColorValue cm val).1),
        jsRound (255 * (interpColorValue cm val).2.1),
        jsRound (255 * (interpColorValue cm val).2.2))) ∧
    ((0 ≤ jsRound (255 * (interpColorValue cm val).1) ∧
        jsRound (255 * (interpColorValue cm val).1) ≤ 255) ∧
      (0 ≤ jsRound (255 * (interpColorValue cm val).2.1) ∧
        jsRound (255 * (interpColorValue cm val).2.1) ≤ 255) ∧
      (0 ≤ jsRound (255 * (interpColorValue cm val).2.2) ∧
        jsRound (255 * (interpColorValue cm val).2.2) ≤ 255)) ∧
    (jsRound (255 * (interpColorValue cm val).1) =
        roundHalfAwayFromZero (255 * (interpColorValue cm val).1) ∧
      jsRound (255 * (interpColorValue cm val).2.1) =
        roundHalfAwayFromZero (255 * (interpColorValue cm val).2.1) ∧
      jsRound (255 * (interpColorValue cm val).2.2) =
        roundHalfAwayFromZero (255 * (interpColorValue cm val).2.2)) ∧
    (interpolateColor cm val ColorFormat.HEX).1 =
      ColorResult.hex (String.mk ('#' ::
        (hexPair (jsRound (255 * (interpColorValue cm val).1)).toNat ++
          hexPair (jsRound (255 * (interpColorValue cm val).2.1)).toNat ++
          hexPair (jsRound (255 * (interpColorValue cm val).2.2)).toNat))) ∧
    (String.mk ('#' ::
        (hexPair (jsRound (255 * (interpColorValue cm val).1)).toNat ++
          hexPair (jsRound (255 * (interpColorValue cm val).2.1)).toNat ++
          hexPair (jsRound (255 * (interpColorValue cm val).2.2)).toNat))).length
      = 7 := by
  have hcm := ensureLoaded_of_loaded cm xs hx
  have hmem := interpColorValue_mem_unit cm val hr hg hb
  have hb1 := jsRound_byte_mem _ hmem.1.1 hmem.1.2
  have hb2 := jsRound_byte_mem _ hmem.2.1.1 hmem.2.1.2
  have hb3 := jsRound_byte_mem _ hmem.2.2.1 hmem.2.2.2
  refine ⟨⟨?_, ?_⟩, ⟨hb1, hb2, hb3⟩, ⟨?_, ?_, ?_⟩, ?_, ?_⟩
  · unfold interpolateColor
    rw [hcm]
    rfl
  · unfold interpolateColor
    rw [hcm]
    rfl
  · exact jsRound_eq_half_away _ (mul_nonneg (by norm_num) hmem.1.1)
  · exact jsRound_eq_half_away _ (mul_nonneg (by norm_num) hmem.2.1.1)
  · exact jsRound_eq_half_away _ (mul_nonneg (by norm_num) hmem.2.2.1)
  · unfold interpolateColor
    rw [hcm]
    show ColorResult.hex _ = ColorResult.hex _
    rw [padSlice2_intToHex_byte _ hb1.1 hb1.2, padSlice2_intToHex_byte _ hb2.1 hb2.2,
      padSlice2_intToHex_byte _ hb3.1 hb3.2]
  · rfl

/-- C6 amended, witness at the six-point series and value 3/10
(the spec's RGB scenario, bytes (77, 77, 136)). -/
theorem C6_byte_hex_witness :
    (interpolateColor cmSix (3/10) ColorFormat.RGB).1 =
      ColorResult.rgb (jsRound (255 * (interpColorValue cmSix (3/10)).1),
        jsRound (255 * (interpColorValue cmSix (3/10)).2.1),
        jsRound (255 * (interpColorValue cmSix (3/10)).2.2)) :=
  (C6_byte_hex_of_unit_channels cmSix (sixSeries.map fun v => v.1)
    (by decide) (by decide) (by decide) (by decide) (3/10)).1.2

/-- C7.  `setInputRange` accepts min > max without error; with such a
range, the value min maps to the first control point's color, the value
max maps to the last control point's color, and the shared normalization
`x = (value - min) / (max - min)` is strictly decreasing in the value, so
decreasing inputs map to increasing normalized positions. -/
theorem C7_inverted_range (cm : ColorMap) (xs : List ℚ) (mn mx : ℚ)
    (format : ColorFormat) (hx : cm.x_values = some xs) (_hlen : 2 ≤ xs.length)
    (hgt : mx < mn) :
    (setInputRange (mn, mx) cm).x_range = (mn, mx) ∧
    interpolateColor (setInputRange (mn, mx) cm) mn format =
      (lookupColor (setInputRange (mn, mx) cm) 0 format, setInputRange (mn, mx) cm) ∧
    interpolateColor (setInputRange (mn, mx) cm) mx format =
      (lookupColor (setInputRange (mn, mx) cm) (xs.length - 1) format,
        setInputRange (mn, mx) cm) ∧
    ∀ v1 v2 : ℚ, v1 < v2 →
      (v2 - mn) / (mx - mn) < (v1 - mn) / (mx - mn) := by
  have hx2 : (setInputRange (mn, mx) cm).x_values = some xs := hx
  have hcm := ensureLoaded_of_loaded (setInputRange (mn, mx) cm) xs hx2
  have hne : mx - mn ≠ 0 := by
    intro hc
    have : mx = mn := by linarith
    linarith
  refine ⟨rfl, ?_, ?_, ?_⟩
  · have h0 : (mn - (setInputRange (mn, mx) cm).x_range.1) /
        ((setInputRange (mn, mx) cm).x_range.2 -
          (setInputRange (mn, mx) cm).x_range.1) ≤ 0 := by
      show (mn - mn) / (mx - mn) ≤ 0
      rw [sub_self, zero_div]
    unfold interpolateColor
    dsimp only
    rw [hcm, interpColorValue_low _ mn h0]
    rfl
  · have h1 : (mx - (setInputRange (mn, mx) cm).x_range.1) /
        ((setInputRange (mn, mx) cm).x_range.2 -
          (setInputRange (mn, mx) cm).x_range.1) ≥ 1 := by
      show (mx - mn) / (mx - mn) ≥ 1
      rw [div_self hne]
    have h0 : ¬ ((mx - (setInputRange (mn, mx) cm).x_range.1) /
        ((setInputRange (mn, mx) cm).x_range.2 -
          (setInputRange (mn, mx) cm).x_range.1) ≤ 0) := by
      intro hc
      have h1x : ((1 : ℚ)) ≤ (mx - mn) / (mx - mn) := h1
      have hcx : (mx - mn) / (mx - mn) ≤ 0 := hc
      linarith
    unfold interpolateColor
    dsimp only
    rw [hcm, interpColorValue_high _ mx h0 h1]
    show (_, _) = (_, _)
    rw [hx2]
    rfl
  · intro v1 v2 h12
    exact (div_lt_div_right_of_neg (by linarith)).mpr (by linarith)

/-- C7 witness: the six-point series with range (1, 0): interpolating at
the range minimum 1 returns the first control point's color. -/
theorem C7_inverted_range_witness :
    interpolateColor (setInputRange (1, 0) cmSix) 1 ColorFormat.DOUBLE =
      (lookupColor (setInputRange (1, 0) cmSix) 0 ColorFormat.DOUBLE,
        setInputRange (1, 0) cmSix) :=
  (C7_inverted_range cmSix (sixSeries.map fun v => v.1) 1 0
    ColorFormat.DOUBLE (by decide) (by decide) (by decide)).2.1

/-- C8.  With the six-point series loaded and the input range set to
[-40, 160], the value -20 is remapped to the internal position 0.1 and
blended between the first two control points: the FRACTION result is
(0.1, 0.5, 0.545). -/
theorem C8_range_remap_scenario :
    ((-20 : ℚ) - (setInputRange (-40, 160) cmSix).x_range.1) /
        ((setInputRange (-40, 160) cmSix).x_range.2 -
          (setInputRange (-40, 160) cmSix).x_range.1) = 1/10 ∧
    (interpolateColor (setInputRange (-40, 160) cmSix) (-20) ColorFormat.DOUBLE).1 =
      ColorResult.double (1/10, 1/2, 109/200) := by
  refine ⟨by decide, by decide⟩

/-- C9.  Loading by name fails with NotFound exactly when the name is
not among the registered names of `listColorSeries`; loading "rainbow"
succeeds; and a NotFound failure leaves the store (loaded series and
input range alike) unchanged. -/
theorem C9_load_by_name (name : String) (cm : ColorMap) :
    ((useColorSeries name cm).1 = some ColorError.NotFound ↔
      name ∉ listColorSeries) ∧
    ((useColorSeries name cm).1 = none ↔ name ∈ listColorSeries) ∧
    (useColorSeries "rainbow" cm).1 = none ∧
    ((useColorSeries name cm).1 = some ColorError.NotFound →
      (useColorSeries name cm).2 = cm) := by
  by_cases h : name = "rainbow" <;>
    simp [useColorSeries, ColorSeriesTable, listColorSeries, h]

/-- C9 witness: the unregistered name "nope" fails with NotFound. -/
theorem C9_load_by_name_witness :
    (useColorSeries "nope" cmSix).1 = some ColorError.NotFound :=
  (C9_load_by_name "nope" cmSix).1.mpr (by decide)

/-- C10.  Frame conditions: `setInputRange` leaves the four parallel
sequences unchanged; loading (raw or by name) leaves the input range
unchanged; `interpolateColor` on a loaded map leaves the whole state
unchanged, and on a never-loaded map changes it exactly by loading the
built-in rainbow series. -/
theorem C10_frame_conditions (range : ℚ × ℚ) (values : List (ℚ × ℚ × ℚ × ℚ))
    (name : String) (cm : ColorMap) (val : ℚ) (format : ColorFormat) :
    ((setInputRange range cm).x_values = cm.x_values ∧
      (setInputRange range cm).r_values = cm.r_values ∧
      (setInputRange range cm).g_values = cm.g_values ∧
      (setInputRange range cm).b_values = cm.b_values) ∧
    (inputColorSeries values cm).x_range = cm.x_range ∧
    (useColorSeries name cm).2.x_range = cm.x_range ∧
    (cm.x_values.isSome → (interpolateColor cm val format).2 = cm) ∧
    (cm.x_values = none →
      (interpolateColor cm val format).2 = inputColorSeries rainbow cm) := by
  refine ⟨⟨rfl, rfl, rfl, rfl⟩, rfl, ?_, ?_, ?_⟩
  · cases h : ColorSeriesTable name <;> simp [useColorSeries, h, inputColorSeries]
  · intro h
    cases hcm : cm.x_values with
    | none => rw [hcm] at h; simp at h
    | some xs =>
      show ensureLoaded cm = cm
      exact ensureLoaded_of_loaded cm xs hcm
  · intro h
    show ensureLoaded cm = inputColorSeries rainbow cm
    unfold ensureLoaded
    rw [h]
    rfl

/-- C10 witness: interpolating on a never-loaded map loads rainbow. -/
theorem C10_frame_conditions_witness :
    (interpolateColor ColorMap.init 0 ColorFormat.RGB).2 =
      inputColorSeries rainbow ColorMap.init :=
  (C10_frame_conditions (0, 1) sixSeries "rainbow" ColorMap.init 0
    ColorFormat.RGB).2.2.2.2 rfl

end Colorkit
